import Mathlib

/-!
Verification of the bitmap-font rasterizer (`src/bitmap/mod.rs`).

The Rust module decodes a bitmap atlas image into a `BitmapFont` record by
scanning sentinel pixels (glyph-width marker in row 0, padding run after it,
underline run and strikeout run in column 0), stores the record in a registry
keyed by font handles, and extracts single-glyph pixel rectangles on demand.

This file shallowly embeds that module: pixel buffers are `List Nat` (one
entry per RGB byte, row-major), registry maps are association lists (cons
models `HashMap::insert`, `find?` models `get`), fallible indexing is
`Option`, and a Rust index panic is the dedicated `RunResult.indexError`
outcome.
-/

/-- The first visible character, `'!'`, code point 33; glyph-sheet index 1
(index 0 is reserved for metrics information). -/
def FIRST_CHARACTER : Nat := 33

/-- Pixels are loaded as RGB: 3 bytes per pixel. -/
def PIXEL_COMPONENTS : Nat := 3

/-- A decoded RGB image: dimensions plus the raw byte buffer, row-major,
`PIXEL_COMPONENTS` bytes per pixel (models `image::RgbImage`). -/
structure Image where
  width : Nat
  height : Nat
  data : List Nat
deriving DecidableEq

/-- The `RgbImage` representation guarantee: the byte buffer has exactly
width × height × 3 entries. -/
def Image.wf (img : Image) : Prop :=
  img.data.length = img.width * img.height * PIXEL_COMPONENTS

/-- `check_pixel_color(data, atlas_width, x, y, r, g, b)`: compares the three
bytes of the pixel at `(x, y)` with `(r, g, b)`.  The Rust code indexes the
slice directly; every call inside `load_font` is in bounds for a well-formed
image, and the out-of-range default 256 can never equal a byte value. -/
def check_pixel_color (data : List Nat) (atlas_width x y r g b : Nat) : Bool :=
  let i := (x + y * atlas_width) * PIXEL_COMPONENTS
  data.getD i 256 == r && data.getD (i + 1) 256 == g && data.getD (i + 2) 256 == b

/-- The `for x in 0..atlas_width { if green(x,0) { advance = x+1; break } }`
loop: `x + 1` for the first column of row 0 holding pure green (0,255,0),
and 0 when the row has none. -/
def scanWidth (data : List Nat) (w : Nat) : Nat :=
  match (List.range w).find? (fun x => check_pixel_color data w x 0 0 255 0) with
  | some x => x + 1
  | none => 0

/-- The `for x in advance..atlas_width { if !magenta(x,0) { break }; padding += 1 }`
loop: the length of the run of pure-magenta (255,0,255) pixels in row 0
starting at column `adv`.  (The Rust call is
`check_pixel_color(data, w, x, 0, 255, 0, 255)`: r = 255, g = 0, b = 255.) -/
def scanPadding (data : List Nat) (w adv : Nat) : Nat :=
  ((List.range' adv (w - adv)).takeWhile
    (fun x => check_pixel_color data w x 0 255 0 255)).length

/-- Accumulator-passing form of the marker-column loop: `acc = (pos, th)`;
a matching row sets `pos` to `h - y` if it is still 0 and always bumps `th`. -/
def scanColumnAux (p : Nat → Bool) (h : Nat) : List Nat → Nat × Nat → Nat × Nat
  | [], acc => acc
  | y :: ys, acc =>
      scanColumnAux p h ys
        (if p y then (if acc.1 = 0 then h - y else acc.1, acc.2 + 1) else acc)

/-- The `for y in 0..h { if p(0,y) { if pos == 0 { pos = h - y }; th += 1 } }`
loop over the whole column. -/
def scanColumn (p : Nat → Bool) (h : Nat) : Nat × Nat :=
  scanColumnAux p h (List.range h) (0, 0)

/-- `BitmapFont`: the record stored by the registry for one loaded atlas. -/
structure BitmapFont where
  img : Image
  atlas_width : Nat
  padding_width : Nat
  average_advance : Nat
  line_height : Nat
  underline_position : Nat
  underline_thickness : Nat
  strikeout_position : Nat
  strikeout_thickness : Nat
deriving DecidableEq

/-- Facts every registry-resident record enjoys because `load_font` copies the
image dimensions into it: the atlas fields agree with the image and the byte
buffer is full-size. -/
def BitmapFont.wf (f : BitmapFont) : Prop :=
  f.atlas_width = f.img.width ∧ f.line_height = f.img.height ∧ f.img.wf

/-- The error type (`FontNotFound` carries the descriptor, `PlatformError` a
human-readable cause). -/
inductive Error where
  | FontNotFound (desc : String)
  | PlatformError (msg : String)
  | UnknownFontKey
deriving DecidableEq

/-- Outcome of the external image-open/decode collaborator consumed by
`load_font`: the file fails to open, the bytes fail to decode, or an RGB
image is produced. -/
inductive ImageInput where
  | openFail
  | decodeFail
  | ok (img : Image)
deriving DecidableEq

/-- The structural-validation part of `load_font` (lines 114-184 of the Rust
source): scan the width, padding, underline and strikeout markers and build
the `BitmapFont`, failing when the width marker, the underline run or the
strikeout run is absent. -/
def decodeFont (img : Image) : Except Error BitmapFont :=
  let w := img.width
  let h := img.height
  let d := img.data
  let average_advance := scanWidth d w
  if average_advance = 0 then
    Except.error (Error.PlatformError "Cannot determine font glyph width")
  else
    let padding_width := scanPadding d w average_advance
    let u := scanColumn (fun y => check_pixel_color d w 0 y 255 0 0) h
    if u.1 = 0 then
      Except.error (Error.PlatformError "Cannot determine font underline position")
    else
      let s := scanColumn (fun y => check_pixel_color d w 0 y 0 0 255) h
      if s.1 = 0 then
        Except.error (Error.PlatformError "Cannot determine font strikeout position")
      else
        Except.ok
          { img := img
            atlas_width := w
            padding_width := padding_width
            average_advance := average_advance
            line_height := h
            underline_position := u.1
            underline_thickness := u.2
            strikeout_position := s.1
            strikeout_thickness := s.2 }

/-- The registry: `fonts` (handle → record) and `keys` (descriptor → handle),
as association lists; cons models `HashMap::insert`. -/
structure BitmapRasterizer where
  fonts : List (Nat × BitmapFont)
  keys : List (String × Nat)
deriving DecidableEq

/-- `BitmapRasterizer::new`: both maps empty. -/
def BitmapRasterizer.new : BitmapRasterizer :=
  { fonts := [], keys := [] }

/-- `load_font(&mut self, desc, _size)`: open and decode the image (modelled
by `input`), validate the markers, and on success insert into both maps under
a fresh key (`FontKey::next()` is modelled by the `key` argument).  Returns
the possibly-updated registry together with the `Result`. -/
def load_font (r : BitmapRasterizer) (desc : String) (key : Nat)
    (input : ImageInput) : BitmapRasterizer × Except Error Nat :=
  match input with
  | ImageInput.openFail => (r, Except.error (Error.FontNotFound desc))
  | ImageInput.decodeFail => (r, Except.error (Error.PlatformError "Failed to decode font"))
  | ImageInput.ok img =>
    match decodeFont img with
    | Except.error e => (r, Except.error e)
    | Except.ok font =>
        ({ fonts := (key, font) :: r.fonts, keys := (desc, key) :: r.keys },
         Except.ok key)

/-- `get_loaded_font`: map lookup, `UnknownFontKey` when absent. -/
def get_loaded_font (r : BitmapRasterizer) (font_key : Nat) :
    Except Error BitmapFont :=
  match r.fonts.find? (fun kv => kv.1 == font_key) with
  | some kv => Except.ok kv.2
  | none => Except.error Error.UnknownFontKey

/-- The `Metrics` record; the Rust code casts the stored naturals to floats,
which we keep as the pre-cast naturals (`descent` is the literal 0). -/
structure Metrics where
  descent : Nat
  average_advance : Nat
  line_height : Nat
  underline_position : Nat
  underline_thickness : Nat
  strikeout_position : Nat
  strikeout_thickness : Nat
deriving DecidableEq

/-- `metrics(&self, key, _size)`. -/
def metrics (r : BitmapRasterizer) (key : Nat) : Except Error Metrics :=
  match get_loaded_font r key with
  | Except.error e => Except.error e
  | Except.ok f =>
      Except.ok
        { descent := 0
          average_advance := f.average_advance
          line_height := f.line_height
          underline_position := f.underline_position
          underline_thickness := f.underline_thickness
          strikeout_position := f.strikeout_position
          strikeout_thickness := f.strikeout_thickness }

/-- A glyph request: font handle plus character code point. -/
structure GlyphKey where
  font_key : Nat
  character : Nat
deriving DecidableEq

/-- `RasterizedGlyph` (the `i32` fields kept as `Int`). -/
structure RasterizedGlyph where
  character : Nat
  width : Int
  height : Int
  top : Int
  left : Int
  advance : Int × Int
  buffer : List Nat
deriving DecidableEq

/-- Outcome of running a fallible Rust function that may also panic:
`indexError` is an out-of-bounds slice index (a panic, not a returned
`Err`). -/
inductive RunResult (α : Type) where
  | indexError
  | err (e : Error)
  | ok (a : α)
deriving DecidableEq

/-- The flat byte indices visited by the copy loops of `rasterize_glyph`:
`for y in 0..line_height { for x in 0..average_advance { i = (x + x_offset + y * atlas_width) * 3 } }`. -/
def glyphIndices (font : BitmapFont) (x_offset : Nat) : List Nat :=
  (List.range font.line_height).flatMap (fun y =>
    (List.range font.average_advance).map (fun x =>
      (x + x_offset + y * font.atlas_width) * PIXEL_COMPONENTS))

/-- `data.push(font_data[i]); data.push(font_data[i+1]); data.push(font_data[i+2])`:
the three bytes at `i`, or `none` when any index is out of bounds (a panic in
Rust). -/
def pixelBytes (data : List Nat) (i : Nat) : Option (List Nat) :=
  match data[i]?, data[i + 1]?, data[i + 2]? with
  | some b0, some b1, some b2 => some [b0, b1, b2]
  | _, _, _ => none

/-- Run the copy loop over a list of pixel indices, concatenating the byte
triples; `none` as soon as one read is out of bounds. -/
def collectBytes (data : List Nat) : List Nat → Option (List Nat)
  | [] => some []
  | i :: is =>
    match pixelBytes data i, collectBytes data is with
    | some bs, some rest => some (bs ++ rest)
    | _, _ => none

/-- The buffer-building block of `rasterize_glyph`. -/
def extractGlyph (font : BitmapFont) (x_offset : Nat) : Option (List Nat) :=
  collectBytes font.img.data (glyphIndices font x_offset)

/-- `rasterize_glyph`: reject code points below `FIRST_CHARACTER`, look the
font up, then copy one `average_advance × line_height` cell starting at
horizontal offset `(average_advance + padding_width) * (character - 33 + 1)`. -/
def rasterize_glyph (r : BitmapRasterizer) (glyph : GlyphKey) :
    RunResult RasterizedGlyph :=
  let character_index := glyph.character
  if character_index < FIRST_CHARACTER then
    RunResult.err Error.UnknownFontKey
  else
    match get_loaded_font r glyph.font_key with
    | Except.error e => RunResult.err e
    | Except.ok loaded_font =>
      let x_offset := (loaded_font.average_advance + loaded_font.padding_width)
          * (character_index - FIRST_CHARACTER + 1)
      match extractGlyph loaded_font x_offset with
      | none => RunResult.indexError
      | some data =>
          RunResult.ok
            { character := glyph.character
              width := (loaded_font.average_advance : Int)
              height := (loaded_font.line_height : Int)
              top := (loaded_font.line_height : Int)
              left := 0
              advance := (0, 0)
              buffer := data }

/-- `get_glyph(&mut self, glyph)`: delegates to `rasterize_glyph`; the
registry is returned unchanged because the Rust body never writes `self`. -/
def get_glyph (r : BitmapRasterizer) (glyph : GlyphKey) :
    BitmapRasterizer × RunResult RasterizedGlyph :=
  (r, rasterize_glyph r glyph)

/-- `kerning(&mut self, _left, _right)`: always `(0., 0.)`, no mutation. -/
def kerning (r : BitmapRasterizer) (_left _right : GlyphKey) :
    BitmapRasterizer × (Int × Int) :=
  (r, (0, 0))

/-- `update_dpr(&mut self, _device_pixel_ratio)`: empty body (`ratio` kept as
`Int` since the argument is ignored byte-for-byte). -/
def update_dpr (r : BitmapRasterizer) (_dpr : Int) : BitmapRasterizer :=
  r

/-- One read-only registry operation, for stating frame conditions over call
sequences. -/
inductive ReadOp where
  | metricsOp (key : Nat)
  | getGlyphOp (glyph : GlyphKey)
  | kerningOp (left right : GlyphKey)
  | updateDprOp (dpr : Int)
deriving DecidableEq

/-- Run one read-only operation and keep the resulting registry state. -/
def runReadOp (r : BitmapRasterizer) (op : ReadOp) : BitmapRasterizer :=
  match op with
  | ReadOp.metricsOp _ => r
  | ReadOp.getGlyphOp g => (get_glyph r g).1
  | ReadOp.kerningOp l rt => (kerning r l rt).1
  | ReadOp.updateDprOp dpr => update_dpr r dpr

/-! ### Spec-side definitions

These follow the wording of the specification, to be compared with the
code-derived definitions above. -/

/-- Spec wording for the padding marker: the number of consecutive pure-green
(0,255,0) pixels in row 0 starting at column `start`, stopping at the first
non-green pixel. -/
def specGreenPaddingCount (data : List Nat) (w start : Nat) : Nat :=
  ((List.range' start (w - start)).takeWhile
    (fun x => check_pixel_color data w x 0 0 255 0)).length

/-- Spec wording for the underline/strikeout thickness: the count of
consecutive matching pixels in the contiguous run of column 0 that starts at
the first matching row. -/
def specContiguousRunCount (data : List Nat) (w h r g b : Nat) : Nat :=
  match (List.range h).find? (fun y => check_pixel_color data w 0 y r g b) with
  | none => 0
  | some y0 =>
      ((List.range' y0 (h - y0)).takeWhile
        (fun y => check_pixel_color data w 0 y r g b)).length

/-- The total number of rows of column 0 whose pixel equals `(r, g, b)`. -/
def countColorColumn (data : List Nat) (w h r g b : Nat) : Nat :=
  ((List.range h).filter (fun y => check_pixel_color data w 0 y r g b)).length

/-- The three bytes of the pixel starting at flat index `i` (total reads,
for describing buffers already known to be in bounds). -/
def chunkAt (data : List Nat) (i : Nat) : List Nat :=
  [data.getD i 0, data.getD (i + 1) 0, data.getD (i + 2) 0]

/-- Spec wording for the extracted glyph: the `gw × lh` RGB rectangle of the
atlas starting at horizontal offset `x_offset` and row 0, packed 3 bytes per
pixel, row-major. -/
def specGlyphRect (img : Image) (x_offset gw lh : Nat) : List Nat :=
  (List.range lh).flatMap (fun y =>
    (List.range gw).flatMap (fun x =>
      chunkAt img.data ((x + x_offset + y * img.width) * PIXEL_COMPONENTS)))

/-- The data-model invariant of every registry-resident record:
positive glyph width, underline position and strikeout position, and a
full-size pixel buffer. -/
def RegistryInv (r : BitmapRasterizer) : Prop :=
  ∀ kf ∈ r.fonts,
    0 < kf.2.average_advance ∧ 0 < kf.2.underline_position ∧
    0 < kf.2.strikeout_position ∧
    kf.2.img.data.length = kf.2.atlas_width * kf.2.line_height * PIXEL_COMPONENTS

/-! ### Concrete test images -/

/-- A 4 × 3 atlas that decodes successfully: green width marker at row 0
column 1 (`average_advance = 2`), no padding, a red pixel at row 1 column 0
(`underline_position = 2`, thickness 1) and a blue pixel at row 2 column 0
(`strikeout_position = 1`, thickness 1). -/
def exImgOk : Image :=
  { width := 4
    height := 3
    data :=
      [0,0,0,  0,255,0,  7,8,9,  10,11,12,
       255,0,0,  1,1,1,  2,2,2,  3,3,3,
       0,0,255,  4,4,4,  5,5,5,  6,6,6] }

/-- The record `decodeFont exImgOk` produces. -/
def exFontOk : BitmapFont :=
  { img := exImgOk
    atlas_width := 4
    padding_width := 0
    average_advance := 2
    line_height := 3
    underline_position := 2
    underline_thickness := 1
    strikeout_position := 1
    strikeout_thickness := 1 }

/-- A 3 × 3 atlas whose row 0 continues with a pure-green pixel right after
the width marker: green at columns 1 and 2, red at row 1 column 0, blue at
row 2 column 0. -/
def exImgGreenPad : Image :=
  { width := 3
    height := 3
    data :=
      [0,0,0,  0,255,0,  0,255,0,
       255,0,0,  0,0,0,  0,0,0,
       0,0,255,  0,0,0,  0,0,0] }

/-- A 2 × 5 atlas whose column 0 holds two separated red pixels (rows 1 and
3) and a blue pixel (row 4); green width marker at row 0 column 1. -/
def exImgGapRed : Image :=
  { width := 2
    height := 5
    data :=
      [0,0,0,  0,255,0,
       255,0,0,  0,0,0,
       0,0,0,  0,0,0,
       255,0,0,  0,0,0,
       0,0,255,  0,0,0] }

/-- The record `decodeFont exImgGreenPad` produces (padding 0: the pixel at
row 0 column 2 is green, not magenta). -/
def exFontGreenPad : BitmapFont :=
  { img := exImgGreenPad
    atlas_width := 3
    padding_width := 0
    average_advance := 2
    line_height := 3
    underline_position := 2
    underline_thickness := 1
    strikeout_position := 1
    strikeout_thickness := 1 }

/-- The record `decodeFont exImgGapRed` produces (thickness 2: both red
rows are counted although they are not contiguous). -/
def exFontGapRed : BitmapFont :=
  { img := exImgGapRed
    atlas_width := 2
    padding_width := 0
    average_advance := 2
    line_height := 5
    underline_position := 4
    underline_thickness := 2
    strikeout_position := 1
    strikeout_thickness := 1 }

/-- A 1 × 1 all-black image: no width marker, decode fails immediately. -/
def exImgNoGreen : Image :=
  { width := 1, height := 1, data := [0, 0, 0] }

/-! ### Helper lemmas: loop characterizations -/

/-- The run counted by `takeWhile` over `range'` never exceeds the range
length. -/
theorem takeWhile_range'_le (p : Nat → Bool) :
    ∀ n s : Nat, ((List.range' s n).takeWhile p).length ≤ n := by
  intro n
  induction n with
  | zero => intro s; simp
  | succ n ih =>
    intro s
    rw [List.range'_succ]
    by_cases hp : p s = true
    · simp only [List.takeWhile_cons_of_pos hp, List.length_cons]
      exact Nat.succ_le_succ (ih (s + 1))
    · simp [List.takeWhile_cons_of_neg hp]

/-- Every position inside the `takeWhile` run satisfies the predicate. -/
theorem takeWhile_range'_true (p : Nat → Bool) :
    ∀ n s j : Nat, j < ((List.range' s n).takeWhile p).length → p (s + j) = true := by
  intro n
  induction n with
  | zero => intro s j hj; simp at hj
  | succ n ih =>
    intro s j hj
    rw [List.range'_succ] at hj
    by_cases hp : p s = true
    · rw [List.takeWhile_cons_of_pos hp, List.length_cons] at hj
      cases j with
      | zero => simpa using hp
      | succ j =>
        have hrec := ih (s + 1) j (by omega)
        have harith : s + (j + 1) = s + 1 + j := by omega
        rw [harith]
        exact hrec
    · rw [List.takeWhile_cons_of_neg hp] at hj
      simp at hj

/-- The position just past the `takeWhile` run fails the predicate (when it
is still inside the range). -/
theorem takeWhile_range'_stop (p : Nat → Bool) :
    ∀ n s : Nat, ((List.range' s n).takeWhile p).length < n →
      p (s + ((List.range' s n).takeWhile p).length) = false := by
  intro n
  induction n with
  | zero => intro s h; simp at h
  | succ n ih =>
    intro s h
    rw [List.range'_succ] at h ⊢
    by_cases hp : p s = true
    · rw [List.takeWhile_cons_of_pos hp, List.length_cons] at h ⊢
      have hrec := ih (s + 1) (by omega)
      have harith : s + (((List.range' (s + 1) n).takeWhile p).length + 1)
          = s + 1 + ((List.range' (s + 1) n).takeWhile p).length := by omega
      rw [harith]
      exact hrec
    · rw [List.takeWhile_cons_of_neg hp] at h ⊢
      simp only [List.length_nil, Nat.add_zero]
      exact Bool.not_eq_true _ ▸ (by simpa using hp)

/-- `find?` over `range' s n` returns the first position satisfying `p`. -/
theorem find?_range'_some (p : Nat → Bool) :
    ∀ n s c : Nat, (List.range' s n).find? p = some c →
      s ≤ c ∧ c < s + n ∧ p c = true ∧ ∀ j, s ≤ j → j < c → p j = false := by
  intro n
  induction n with
  | zero => intro s c h; simp at h
  | succ n ih =>
    intro s c h
    rw [List.range'_succ] at h
    by_cases hp : p s = true
    · rw [List.find?_cons_of_pos _ hp] at h
      cases h
      exact ⟨Nat.le_refl s, by omega, hp, fun j hj1 hj2 => absurd hj1 (by omega)⟩
    · rw [List.find?_cons_of_neg _ hp] at h
      obtain ⟨h1, h2, h3, h4⟩ := ih (s + 1) c h
      refine ⟨by omega, by omega, h3, fun j hj1 hj2 => ?_⟩
      rcases Nat.eq_or_lt_of_le hj1 with heq | hlt
      · rw [← heq]
        simpa using hp
      · exact h4 j hlt hj2

/-- `find?` over `range n` returns the first position below `n` satisfying
`p`. -/
theorem find?_range_some (p : Nat → Bool) (n c : Nat)
    (h : (List.range n).find? p = some c) :
    c < n ∧ p c = true ∧ ∀ j < c, p j = false := by
  rw [List.range_eq_range'] at h
  obtain ⟨_, h2, h3, h4⟩ := find?_range'_some p n 0 c h
  exact ⟨by omega, h3, fun j hj => h4 j (Nat.zero_le j) hj⟩

/-- The thickness accumulator of the marker-column loop counts every
matching row. -/
theorem scanColumnAux_snd (p : Nat → Bool) (h : Nat) :
    ∀ (ys : List Nat) (acc : Nat × Nat),
      (scanColumnAux p h ys acc).2 = acc.2 + (ys.filter p).length := by
  intro ys
  induction ys with
  | nil => intro acc; simp [scanColumnAux]
  | cons y ys ih =>
    intro acc
    by_cases hp : p y = true
    · simp only [scanColumnAux, hp, if_true, List.filter_cons, ih]
      simp
      omega
    · simp only [scanColumnAux, hp, if_false, List.filter_cons, ih]
      simp [hp]

/-- Once the position accumulator is nonzero it never changes. -/
theorem scanColumnAux_fst_ne (p : Nat → Bool) (h : Nat) :
    ∀ (ys : List Nat) (acc : Nat × Nat), acc.1 ≠ 0 →
      (scanColumnAux p h ys acc).1 = acc.1 := by
  intro ys
  induction ys with
  | nil => intro acc _; simp [scanColumnAux]
  | cons y ys ih =>
    intro acc hne
    by_cases hp : p y = true
    · simp only [scanColumnAux, hp, if_true, if_neg hne]
      exact ih (acc.1, acc.2 + 1) hne
    · simp only [scanColumnAux, hp, if_false]
      exact ih acc hne

/-- Starting from position 0, the loop records `h - y` for the first
matching row `y` (0 when no row matches); rows are assumed below `h`. -/
theorem scanColumnAux_fst_zero (p : Nat → Bool) (h : Nat) :
    ∀ (ys : List Nat) (th : Nat), (∀ y ∈ ys, y < h) →
      (scanColumnAux p h ys (0, th)).1 =
        (match ys.find? p with | none => 0 | some y => h - y) := by
  intro ys
  induction ys with
  | nil => intro th _; simp [scanColumnAux]
  | cons y ys ih =>
    intro th hmem
    by_cases hp : p y = true
    · have hy : y < h := hmem y (by simp)
      have hne : h - y ≠ 0 := by omega
      simp only [scanColumnAux, hp, if_true, if_pos rfl, List.find?_cons_of_pos _ hp]
      exact scanColumnAux_fst_ne p h ys (h - y, th + 1) hne
    · simp only [scanColumnAux, hp, if_false, List.find?_cons_of_neg _ hp]
      exact ih th (fun z hz => hmem z (by simp [hz]))

/-- The second component of `scanColumn` counts all matching rows. -/
theorem scanColumn_snd (p : Nat → Bool) (h : Nat) :
    (scanColumn p h).2 = ((List.range h).filter p).length := by
  simp [scanColumn, scanColumnAux_snd]

/-- The first component of `scanColumn` is `h - y` for the first matching
row `y`, and 0 when no row matches. -/
theorem scanColumn_fst (p : Nat → Bool) (h : Nat) :
    (scanColumn p h).1 =
      (match (List.range h).find? p with | none => 0 | some y => h - y) := by
  exact scanColumnAux_fst_zero p h (List.range h) 0
    (fun y hy => List.mem_range.mp hy)

/-! ### Helper lemmas: decode outcomes -/

/-- A successful decode fixes every field of the record from the scans and
implies all three validation guards passed. -/
theorem decodeFont_ok_fields (img : Image) (f : BitmapFont)
    (h : decodeFont img = Except.ok f) :
    f.img = img ∧ f.atlas_width = img.width ∧ f.line_height = img.height ∧
    f.average_advance = scanWidth img.data img.width ∧
    f.padding_width = scanPadding img.data img.width f.average_advance ∧
    f.underline_position =
      (scanColumn (fun y => check_pixel_color img.data img.width 0 y 255 0 0) img.height).1 ∧
    f.underline_thickness =
      (scanColumn (fun y => check_pixel_color img.data img.width 0 y 255 0 0) img.height).2 ∧
    f.strikeout_position =
      (scanColumn (fun y => check_pixel_color img.data img.width 0 y 0 0 255) img.height).1 ∧
    f.strikeout_thickness =
      (scanColumn (fun y => check_pixel_color img.data img.width 0 y 0 0 255) img.height).2 ∧
    f.average_advance ≠ 0 ∧ f.underline_position ≠ 0 ∧ f.strikeout_position ≠ 0 := by
  simp only [decodeFont] at h
  split at h
  · exact absurd h (by simp)
  · split at h
    · exact absurd h (by simp)
    · split at h
      · exact absurd h (by simp)
      · injection h with h2
        subst h2
        simp_all

/-- Decoding without a width marker fails with the glyph-width error. -/
theorem decodeFont_err_width (img : Image)
    (h : scanWidth img.data img.width = 0) :
    decodeFont img =
      Except.error (Error.PlatformError "Cannot determine font glyph width") := by
  simp [decodeFont, h]

/-- Decoding with a width marker but zero underline position fails with the
underline error. -/
theorem decodeFont_err_underline (img : Image)
    (h1 : scanWidth img.data img.width ≠ 0)
    (h2 : (scanColumn (fun y => check_pixel_color img.data img.width 0 y 255 0 0)
        img.height).1 = 0) :
    decodeFont img =
      Except.error (Error.PlatformError "Cannot determine font underline position") := by
  simp [decodeFont, h1, h2]

/-- Decoding with width and underline markers but zero strikeout position
fails with the strikeout error. -/
theorem decodeFont_err_strikeout (img : Image)
    (h1 : scanWidth img.data img.width ≠ 0)
    (h2 : (scanColumn (fun y => check_pixel_color img.data img.width 0 y 255 0 0)
        img.height).1 ≠ 0)
    (h3 : (scanColumn (fun y => check_pixel_color img.data img.width 0 y 0 0 255)
        img.height).1 = 0) :
    decodeFont img =
      Except.error (Error.PlatformError "Cannot determine font strikeout position") := by
  simp [decodeFont, h1, h2, h3]

/-- Decoding with all three markers present succeeds with the scanned
record. -/
theorem decodeFont_ok_of (img : Image)
    (h1 : scanWidth img.data img.width ≠ 0)
    (h2 : (scanColumn (fun y => check_pixel_color img.data img.width 0 y 255 0 0)
        img.height).1 ≠ 0)
    (h3 : (scanColumn (fun y => check_pixel_color img.data img.width 0 y 0 0 255)
        img.height).1 ≠ 0) :
    decodeFont img =
      Except.ok
        { img := img
          atlas_width := img.width
          padding_width := scanPadding img.data img.width (scanWidth img.data img.width)
          average_advance := scanWidth img.data img.width
          line_height := img.height
          underline_position :=
            (scanColumn (fun y => check_pixel_color img.data img.width 0 y 255 0 0)
              img.height).1
          underline_thickness :=
            (scanColumn (fun y => check_pixel_color img.data img.width 0 y 255 0 0)
              img.height).2
          strikeout_position :=
            (scanColumn (fun y => check_pixel_color img.data img.width 0 y 0 0 255)
              img.height).1
          strikeout_thickness :=
            (scanColumn (fun y => check_pixel_color img.data img.width 0 y 0 0 255)
              img.height).2 } := by
  simp [decodeFont, h1, h2, h3]

/-! ### Helper lemmas: glyph extraction -/

/-- An in-bounds pixel read yields the three bytes at `i`. -/
theorem pixelBytes_eq_some (data : List Nat) (i : Nat) (h : i + 2 < data.length) :
    pixelBytes data i = some (chunkAt data i) := by
  have h0 : i < data.length := by omega
  have h1 : i + 1 < data.length := by omega
  simp [pixelBytes, chunkAt, List.getElem?_eq_getElem, h0, h1, h]

/-- A read past the buffer end is an index error. -/
theorem pixelBytes_eq_none (data : List Nat) (i : Nat) (h : data.length ≤ i) :
    pixelBytes data i = none := by
  simp [pixelBytes, List.getElem?_eq_none h]

/-- When every visited index is in bounds, the copy loop produces exactly
the concatenated byte triples. -/
theorem collectBytes_eq_some (data : List Nat) :
    ∀ is : List Nat, (∀ i ∈ is, i + 2 < data.length) →
      collectBytes data is = some (is.flatMap (chunkAt data)) := by
  intro is
  induction is with
  | nil => intro _; simp [collectBytes]
  | cons i is ih =>
    intro hmem
    have hi := hmem i (by simp)
    rw [List.flatMap_cons]
    simp only [collectBytes, pixelBytes_eq_some data i hi,
      ih (fun j hj => hmem j (by simp [hj]))]

/-- One out-of-bounds index anywhere in the visit list makes the whole copy
loop fail. -/
theorem collectBytes_eq_none (data : List Nat) :
    ∀ is : List Nat, ∀ i ∈ is, pixelBytes data i = none →
      collectBytes data is = none := by
  intro is
  induction is with
  | nil => intro i hi; simp at hi
  | cons j is ih =>
    intro i hi hnone
    rcases List.mem_cons.mp hi with rfl | hmem
    · simp [collectBytes, hnone]
    · cases hpj : pixelBytes data j <;>
        simp [collectBytes, hpj, ih i hmem hnone]

/-- Membership in the visited-index list of `rasterize_glyph`. -/
theorem mem_glyphIndices {f : BitmapFont} {xo i : Nat} :
    i ∈ glyphIndices f xo ↔
      ∃ y, y < f.line_height ∧ ∃ x, x < f.average_advance ∧
        i = (x + xo + y * f.atlas_width) * PIXEL_COMPONENTS := by
  simp only [glyphIndices, List.mem_flatMap, List.mem_map, List.mem_range]
  constructor
  · rintro ⟨y, hy, x, hx, rfl⟩
    exact ⟨y, hy, x, hx, rfl⟩
  · rintro ⟨y, hy, x, hx, rfl⟩
    exact ⟨y, hy, x, hx, rfl⟩

/-- The index of any pixel of a cell that fits in the atlas is strictly
inside a full-size buffer. -/
theorem glyphIndex_bound {w lh adv xo x y : Nat} (hx : x < adv) (hy : y < lh)
    (hin : xo + adv ≤ w) :
    (x + xo + y * w) * PIXEL_COMPONENTS + 2 < w * lh * PIXEL_COMPONENTS := by
  have h1 : x + xo + y * w < w * lh := by
    have h2 : x + xo + y * w < w + y * w := by omega
    have h3 : w + y * w ≤ w * lh := by
      have h4 : (y + 1) * w ≤ lh * w := Nat.mul_le_mul hy (Nat.le_refl w)
      calc w + y * w = (y + 1) * w := by ring
        _ ≤ lh * w := h4
        _ = w * lh := Nat.mul_comm lh w
    omega
  have hP : PIXEL_COMPONENTS = 3 := rfl
  rw [hP]
  omega

/-- For a well-formed record whose requested cell fits inside the atlas
width, the extraction loop succeeds and returns the spec rectangle. -/
theorem extractGlyph_eq (f : BitmapFont) (xo : Nat) (hwf : f.wf)
    (hin : xo + f.average_advance ≤ f.atlas_width) :
    extractGlyph f xo =
      some (specGlyphRect f.img xo f.average_advance f.line_height) := by
  obtain ⟨hw, hh, hlen⟩ := hwf
  rw [Image.wf] at hlen
  have hb : ∀ i ∈ glyphIndices f xo, i + 2 < f.img.data.length := by
    intro i hi
    rw [mem_glyphIndices] at hi
    obtain ⟨y, hy, x, hx, rfl⟩ := hi
    rw [hlen, ← hw, ← hh]
    exact glyphIndex_bound hx hy hin
  rw [extractGlyph, collectBytes_eq_some f.img.data _ hb]
  simp [glyphIndices, specGlyphRect, List.flatMap_assoc, List.flatMap_map, hw]

/-- Shared success shape of `rasterize_glyph`: known font, character at or
past `FIRST_CHARACTER`, cell inside the atlas. -/
theorem rasterize_glyph_ok (r : BitmapRasterizer) (g : GlyphKey) (f : BitmapFont)
    (hf : get_loaded_font r g.font_key = Except.ok f) (hwf : f.wf)
    (hc : FIRST_CHARACTER ≤ g.character)
    (hin : (f.average_advance + f.padding_width) * (g.character - FIRST_CHARACTER + 1)
        + f.average_advance ≤ f.atlas_width) :
    rasterize_glyph r g =
      RunResult.ok
        { character := g.character
          width := (f.average_advance : Int)
          height := (f.line_height : Int)
          top := (f.line_height : Int)
          left := 0
          advance := (0, 0)
          buffer := specGlyphRect f.img
            ((f.average_advance + f.padding_width) * (g.character - FIRST_CHARACTER + 1))
            f.average_advance f.line_height } := by
  have hnot : ¬ g.character < FIRST_CHARACTER := Nat.not_lt.mpr hc
  simp only [rasterize_glyph, hf, if_neg hnot, extractGlyph_eq f _ hwf hin]

/-! ### Claim theorems -/

/-- C3: decode scans row 0 left to right from column 0 and sets
`average_advance` (the glyph width) to `c + 1` where `c` is the column of the
first pixel exactly equal to pure green (0,255,0); if row 0 has no green
pixel, decoding fails with the missing-width-marker error (so no other
marker is consulted). -/
theorem glyph_width_first_green (img : Image) :
    (∀ f, decodeFont img = Except.ok f →
      ∃ c, c < img.width ∧
        check_pixel_color img.data img.width c 0 0 255 0 = true ∧
        (∀ j < c, check_pixel_color img.data img.width j 0 0 255 0 = false) ∧
        f.average_advance = c + 1) ∧
    ((∀ c < img.width, check_pixel_color img.data img.width c 0 0 255 0 = false) →
      decodeFont img =
        Except.error (Error.PlatformError "Cannot determine font glyph width")) := by
  constructor
  · intro f hok
    obtain ⟨-, -, -, hadv, -, -, -, -, -, hne, -, -⟩ := decodeFont_ok_fields img f hok
    rw [scanWidth] at hadv
    cases hfind : (List.range img.width).find?
        (fun x => check_pixel_color img.data img.width x 0 0 255 0) with
    | none =>
      rw [hfind] at hadv
      exact absurd hadv hne
    | some c =>
      rw [hfind] at hadv
      obtain ⟨hc, hp, hfirst⟩ := find?_range_some _ _ _ hfind
      exact ⟨c, hc, hp, hfirst, hadv⟩
  · intro hnone
    apply decodeFont_err_width
    rw [scanWidth]
    have hfind : (List.range img.width).find?
        (fun x => check_pixel_color img.data img.width x 0 0 255 0) = none := by
      rw [List.find?_eq_none]
      intro x hx
      simp [hnone x (List.mem_range.mp hx)]
    rw [hfind]

/-- C3 witness: on `exImgOk` the first green column is 1 and the decoded
width is 2. -/
theorem glyph_width_first_green_witness :
    ∃ c, c < exImgOk.width ∧
      check_pixel_color exImgOk.data exImgOk.width c 0 0 255 0 = true ∧
      (∀ j < c, check_pixel_color exImgOk.data exImgOk.width j 0 0 255 0 = false) ∧
      exFontOk.average_advance = c + 1 :=
  (glyph_width_first_green exImgOk).1 exFontOk (by rfl)

/-- C1 counterexample: on `exImgGreenPad` decode succeeds with
`padding_width = 0` although row 0 has one consecutive pure-green pixel
right after the width marker, so padding does not count green pixels. -/
theorem padding_green_claim_false :
    ¬ (∀ f, decodeFont exImgGreenPad = Except.ok f →
        f.padding_width =
          specGreenPaddingCount exImgGreenPad.data exImgGreenPad.width
            f.average_advance) := by
  intro hcl
  exact absurd (hcl exFontGreenPad (by rfl)) (by decide)

/-- C1 (amended): for every image that decodes successfully, `padding_width`
is the number of consecutive pure-magenta (255,0,255) pixels in row 0
starting at column `average_advance`, the count stopping at the first
non-magenta pixel; a count of zero is accepted. -/
theorem padding_counts_magenta_run (img : Image) (f : BitmapFont)
    (h : decodeFont img = Except.ok f) :
    f.average_advance + f.padding_width ≤ img.width ∧
    (∀ j < f.padding_width,
      check_pixel_color img.data img.width (f.average_advance + j) 0 255 0 255 = true) ∧
    (f.average_advance + f.padding_width < img.width →
      check_pixel_color img.data img.width
        (f.average_advance + f.padding_width) 0 255 0 255 = false) := by
  obtain ⟨-, -, -, hadv, hpad, -, -, -, -, hne, -, -⟩ := decodeFont_ok_fields img f h
  rw [scanPadding] at hpad
  have hadvle : f.average_advance ≤ img.width := by
    rw [scanWidth] at hadv
    cases hfind : (List.range img.width).find?
        (fun x => check_pixel_color img.data img.width x 0 0 255 0) with
    | none =>
      rw [hfind] at hadv
      exact absurd hadv hne
    | some c =>
      rw [hfind] at hadv
      have hadv2 : f.average_advance = c + 1 := hadv
      have hc := (find?_range_some _ _ _ hfind).1
      omega
  refine ⟨?_, ?_, ?_⟩
  · have hle := takeWhile_range'_le
      (fun x => check_pixel_color img.data img.width x 0 255 0 255)
      (img.width - f.average_advance) f.average_advance
    omega
  · intro j hj
    rw [hpad] at hj
    exact takeWhile_range'_true _ _ _ _ hj
  · intro hlt
    rw [hpad]
    exact takeWhile_range'_stop
      (fun x => check_pixel_color img.data img.width x 0 255 0 255)
      (img.width - f.average_advance) f.average_advance (by omega)

/-- C2 counterexample: on `exImgGapRed` (red pixels at rows 1 and 3 of
column 0, not contiguous) decode succeeds with `underline_thickness = 2`,
while the contiguous run starting at the first red pixel has length 1. -/
theorem underline_contiguous_claim_false :
    ¬ (∀ f, decodeFont exImgGapRed = Except.ok f →
        f.underline_thickness =
          specContiguousRunCount exImgGapRed.data exImgGapRed.width
            exImgGapRed.height 255 0 0) := by
  intro hcl
  exact absurd (hcl exFontGapRed (by rfl)) (by decide)

/-- C2 (amended): on success, `underline_position` is `atlas_height` minus
the row of the first pure-red pixel of column 0 and `underline_thickness` is
the total count of red pixels anywhere in column 0 (not only the contiguous
run); the missing-underline error occurs exactly when column 0 has no red
pixel; identically for strikeout with pure blue. -/
theorem underline_strikeout_markers :
    (∀ img f, decodeFont img = Except.ok f →
      (∃ y0, (List.range img.height).find?
          (fun y => check_pixel_color img.data img.width 0 y 255 0 0) = some y0 ∧
          f.underline_position = img.height - y0) ∧
      f.underline_thickness = countColorColumn img.data img.width img.height 255 0 0 ∧
      (∃ y0, (List.range img.height).find?
          (fun y => check_pixel_color img.data img.width 0 y 0 0 255) = some y0 ∧
          f.strikeout_position = img.height - y0) ∧
      f.strikeout_thickness = countColorColumn img.data img.width img.height 0 0 255) ∧
    (∀ img, scanWidth img.data img.width ≠ 0 →
      (decodeFont img =
          Except.error (Error.PlatformError "Cannot determine font underline position")
        ↔ ∀ y < img.height, check_pixel_color img.data img.width 0 y 255 0 0 = false)) ∧
    (∀ img, scanWidth img.data img.width ≠ 0 →
      (∃ y, y < img.height ∧ check_pixel_color img.data img.width 0 y 255 0 0 = true) →
      (decodeFont img =
          Except.error (Error.PlatformError "Cannot determine font strikeout position")
        ↔ ∀ y < img.height, check_pixel_color img.data img.width 0 y 0 0 255 = false)) := by
  have hpos_of_red : ∀ (img : Image) (p : Nat → Bool),
      (∃ y, y < img.height ∧ p y = true) →
      (scanColumn p img.height).1 ≠ 0 := by
    intro img p ⟨y, hy, hp⟩
    rw [scanColumn_fst]
    cases hfind : (List.range img.height).find? p with
    | none =>
      rw [List.find?_eq_none] at hfind
      exact absurd hp (hfind y (List.mem_range.mpr hy))
    | some y0 =>
      have hy0 : y0 < img.height :=
        List.mem_range.mp (List.mem_of_find?_eq_some hfind)
      show img.height - y0 ≠ 0
      omega
  have hpos_zero : ∀ (img : Image) (p : Nat → Bool),
      (∀ y < img.height, p y = false) →
      (scanColumn p img.height).1 = 0 := by
    intro img p hnone
    rw [scanColumn_fst]
    have hfind : (List.range img.height).find? p = none := by
      rw [List.find?_eq_none]
      intro y hy
      simp [hnone y (List.mem_range.mp hy)]
    rw [hfind]
  refine ⟨?_, ?_, ?_⟩
  · intro img f hok
    obtain ⟨-, -, -, -, -, hup, hut, hsp, hst, -, hne2, hne3⟩ :=
      decodeFont_ok_fields img f hok
    refine ⟨?_, ?_, ?_, ?_⟩
    · rw [hup] at hne2 ⊢
      rw [scanColumn_fst] at hne2 ⊢
      cases hfind : (List.range img.height).find?
          (fun y => check_pixel_color img.data img.width 0 y 255 0 0) with
      | none => rw [hfind] at hne2; simp at hne2
      | some y0 => exact ⟨y0, rfl, rfl⟩
    · rw [hut, scanColumn_snd, countColorColumn]
    · rw [hsp] at hne3 ⊢
      rw [scanColumn_fst] at hne3 ⊢
      cases hfind : (List.range img.height).find?
          (fun y => check_pixel_color img.data img.width 0 y 0 0 255) with
      | none => rw [hfind] at hne3; simp at hne3
      | some y0 => exact ⟨y0, rfl, rfl⟩
    · rw [hst, scanColumn_snd, countColorColumn]
  · intro img hw
    constructor
    · intro herr
      by_contra hnotall
      push_neg at hnotall
      obtain ⟨y, hy, hp⟩ := hnotall
      have hpne : (scanColumn (fun y => check_pixel_color img.data img.width 0 y 255 0 0)
          img.height).1 ≠ 0 :=
        hpos_of_red img _ ⟨y, hy, by simpa using hp⟩
      by_cases hs : (scanColumn (fun y => check_pixel_color img.data img.width 0 y 0 0 255)
          img.height).1 = 0
      · rw [decodeFont_err_strikeout img hw hpne hs] at herr
        injection herr with h1
        injection h1 with h2
        exact absurd h2 (by decide)
      · rw [decodeFont_ok_of img hw hpne hs] at herr
        exact Except.noConfusion herr
    · intro hnone
      exact decodeFont_err_underline img hw (hpos_zero img _ hnone)
  · intro img hw hred
    have hpne : (scanColumn (fun y => check_pixel_color img.data img.width 0 y 255 0 0)
        img.height).1 ≠ 0 := hpos_of_red img _ hred
    constructor
    · intro herr
      by_contra hnotall
      push_neg at hnotall
      obtain ⟨y, hy, hp⟩ := hnotall
      have hsne : (scanColumn (fun y => check_pixel_color img.data img.width 0 y 0 0 255)
          img.height).1 ≠ 0 :=
        hpos_of_red img _ ⟨y, hy, by simpa using hp⟩
      rw [decodeFont_ok_of img hw hpne hsne] at herr
      exact Except.noConfusion herr
    · intro hnone
      exact decodeFont_err_strikeout img hw hpne (hpos_zero img _ hnone)

/-- C2 witness: the amended claim evaluated on `exImgGapRed`. -/
theorem underline_strikeout_markers_witness :
    (∃ y0, (List.range exImgGapRed.height).find?
        (fun y => check_pixel_color exImgGapRed.data exImgGapRed.width 0 y 255 0 0)
          = some y0 ∧
        exFontGapRed.underline_position = exImgGapRed.height - y0) ∧
    exFontGapRed.underline_thickness =
      countColorColumn exImgGapRed.data exImgGapRed.width exImgGapRed.height 255 0 0 ∧
    (∃ y0, (List.range exImgGapRed.height).find?
        (fun y => check_pixel_color exImgGapRed.data exImgGapRed.width 0 y 0 0 255)
          = some y0 ∧
        exFontGapRed.strikeout_position = exImgGapRed.height - y0) ∧
    exFontGapRed.strikeout_thickness =
      countColorColumn exImgGapRed.data exImgGapRed.width exImgGapRed.height 0 0 255 :=
  underline_strikeout_markers.1 exImgGapRed exFontGapRed (by rfl)

/-- C1 witness: the amended claim evaluated on `exImgOk` (zero padding
accepted). -/
theorem padding_counts_magenta_run_witness :
    exFontOk.average_advance + exFontOk.padding_width ≤ exImgOk.width ∧
    (∀ j < exFontOk.padding_width,
      check_pixel_color exImgOk.data exImgOk.width
        (exFontOk.average_advance + j) 0 255 0 255 = true) ∧
    (exFontOk.average_advance + exFontOk.padding_width < exImgOk.width →
      check_pixel_color exImgOk.data exImgOk.width
        (exFontOk.average_advance + exFontOk.padding_width) 0 255 0 255 = false) :=
  padding_counts_magenta_run exImgOk exFontOk (by rfl)

/-- C4: for a registered font and a character at or past `FIRST_CHARACTER`
whose cell lies inside the atlas, `get_glyph` returns, without touching the
registry, a glyph with width = glyph width, height = top = line height,
left = 0, advance = (0,0), and buffer equal to the
`average_advance × line_height` RGB rectangle starting at horizontal offset
`(average_advance + padding_width) * (character - 33 + 1)` and row 0. -/
theorem get_glyph_extracts_cell (r : BitmapRasterizer) (g : GlyphKey)
    (f : BitmapFont) (hf : get_loaded_font r g.font_key = Except.ok f)
    (hwf : f.wf) (hc : FIRST_CHARACTER ≤ g.character)
    (hin : (f.average_advance + f.padding_width) * (g.character - FIRST_CHARACTER + 1)
        + f.average_advance ≤ f.atlas_width) :
    get_glyph r g =
      (r, RunResult.ok
        { character := g.character
          width := (f.average_advance : Int)
          height := (f.line_height : Int)
          top := (f.line_height : Int)
          left := 0
          advance := (0, 0)
          buffer := specGlyphRect f.img
            ((f.average_advance + f.padding_width) * (g.character - FIRST_CHARACTER + 1))
            f.average_advance f.line_height }) := by
  rw [get_glyph, rasterize_glyph_ok r g f hf hwf hc hin]

/-- C4 witness: extracting character 33 from the registered `exImgOk` font
yields the two rightmost columns of the atlas. -/
theorem get_glyph_extracts_cell_witness :
    get_glyph { fonts := [(0, exFontOk)], keys := [("a", 0)] }
        { font_key := 0, character := 33 } =
      ({ fonts := [(0, exFontOk)], keys := [("a", 0)] },
        RunResult.ok
          { character := 33
            width := (exFontOk.average_advance : Int)
            height := (exFontOk.line_height : Int)
            top := (exFontOk.line_height : Int)
            left := 0
            advance := (0, 0)
            buffer := specGlyphRect exFontOk.img
              ((exFontOk.average_advance + exFontOk.padding_width) * (33 - FIRST_CHARACTER + 1))
              exFontOk.average_advance exFontOk.line_height }) :=
  get_glyph_extracts_cell { fonts := [(0, exFontOk)], keys := [("a", 0)] }
    { font_key := 0, character := 33 } exFontOk (by rfl)
    ⟨rfl, rfl, by unfold Image.wf; decide⟩ (by decide) (by decide)

/-- C5: a character code below 33 fails with `UnknownFontKey` whatever the
handle; an unregistered handle fails with `UnknownFontKey`; character 33
reads cell index 1, at pixel offset `(average_advance + padding_width) * 1`. -/
theorem get_glyph_unknown_and_first_cell :
    (∀ (r : BitmapRasterizer) (g : GlyphKey), g.character < FIRST_CHARACTER →
        get_glyph r g = (r, RunResult.err Error.UnknownFontKey)) ∧
    (∀ (r : BitmapRasterizer) (g : GlyphKey),
        r.fonts.find? (fun kv => kv.1 == g.font_key) = none →
        get_glyph r g = (r, RunResult.err Error.UnknownFontKey)) ∧
    (∀ (r : BitmapRasterizer) (g : GlyphKey) (f : BitmapFont),
        get_loaded_font r g.font_key = Except.ok f → f.wf → g.character = 33 →
        (f.average_advance + f.padding_width) * 1 + f.average_advance ≤ f.atlas_width →
        get_glyph r g =
          (r, RunResult.ok
            { character := g.character
              width := (f.average_advance : Int)
              height := (f.line_height : Int)
              top := (f.line_height : Int)
              left := 0
              advance := (0, 0)
              buffer := specGlyphRect f.img
                ((f.average_advance + f.padding_width) * 1)
                f.average_advance f.line_height })) := by
  refine ⟨?_, ?_, ?_⟩
  · intro r g hlt
    rw [get_glyph, rasterize_glyph, if_pos hlt]
  · intro r g hnone
    by_cases hlt : g.character < FIRST_CHARACTER
    · rw [get_glyph, rasterize_glyph, if_pos hlt]
    · rw [get_glyph, rasterize_glyph, if_neg hlt, get_loaded_font, hnone]
  · intro r g f hf hwf hchar hin
    have hone : g.character - FIRST_CHARACTER + 1 = 1 := by
      rw [hchar]
      decide
    have h2 := rasterize_glyph_ok r g f hf hwf (by rw [hchar]; decide)
      (by rw [hone]; exact hin)
    rw [hone] at h2
    rw [get_glyph, h2]

/-- C5 witness: character 32 is rejected on the registered `exImgOk` font
registry, and character 33 reads the cell at offset `(2 + 0) * 1`. -/
theorem get_glyph_unknown_and_first_cell_witness :
    get_glyph { fonts := [(0, exFontOk)], keys := [("a", 0)] }
        { font_key := 0, character := 32 } =
      ({ fonts := [(0, exFontOk)], keys := [("a", 0)] },
        RunResult.err Error.UnknownFontKey) ∧
    get_glyph { fonts := [], keys := [] } { font_key := 7, character := 40 } =
      ({ fonts := [], keys := [] }, RunResult.err Error.UnknownFontKey) ∧
    get_glyph { fonts := [(0, exFontOk)], keys := [("a", 0)] }
        { font_key := 0, character := 33 } =
      ({ fonts := [(0, exFontOk)], keys := [("a", 0)] },
        RunResult.ok
          { character := 33
            width := (exFontOk.average_advance : Int)
            height := (exFontOk.line_height : Int)
            top := (exFontOk.line_height : Int)
            left := 0
            advance := (0, 0)
            buffer := specGlyphRect exFontOk.img
              ((exFontOk.average_advance + exFontOk.padding_width) * 1)
              exFontOk.average_advance exFontOk.line_height }) :=
  ⟨get_glyph_unknown_and_first_cell.1 _ _ (by decide),
   get_glyph_unknown_and_first_cell.2.1 { fonts := [], keys := [] }
     { font_key := 7, character := 40 } rfl,
   get_glyph_unknown_and_first_cell.2.2 _ _ exFontOk (by rfl)
     ⟨rfl, rfl, by unfold Image.wf; decide⟩ rfl (by decide)⟩

/-- C6: after a successful load, `metrics` on the issued handle returns
descent 0, the decoded record's fields verbatim, and line height equal to
the source image height; an unknown handle fails with `UnknownFontKey`. -/
theorem metrics_fields :
    (∀ (r : BitmapRasterizer) (desc : String) (key : Nat) (img : Image)
        (r2 : BitmapRasterizer) (k : Nat),
      load_font r desc key (ImageInput.ok img) = (r2, Except.ok k) →
      ∃ f, decodeFont img = Except.ok f ∧
        metrics r2 k =
          Except.ok
            { descent := 0
              average_advance := f.average_advance
              line_height := img.height
              underline_position := f.underline_position
              underline_thickness := f.underline_thickness
              strikeout_position := f.strikeout_position
              strikeout_thickness := f.strikeout_thickness }) ∧
    (∀ (r : BitmapRasterizer) (key : Nat),
      r.fonts.find? (fun kv => kv.1 == key) = none →
      metrics r key = Except.error Error.UnknownFontKey) := by
  constructor
  · intro r desc key img r2 k hload
    cases hdec : decodeFont img with
    | error e => simp [load_font, hdec] at hload
    | ok f =>
      simp only [load_font, hdec] at hload
      have h1 := congrArg Prod.fst hload
      have h2 := congrArg Prod.snd hload
      simp only [] at h1 h2
      injection h2 with h3
      obtain ⟨-, -, hlh, -⟩ := decodeFont_ok_fields img f hdec
      refine ⟨f, rfl, ?_⟩
      rw [← h1, ← h3]
      simp [metrics, get_loaded_font, hlh]
  · intro r key hnone
    rw [metrics, get_loaded_font, hnone]

/-- C6 witness: metrics of the handle issued for `exImgOk`. -/
theorem metrics_fields_witness :
    ∃ f, decodeFont exImgOk = Except.ok f ∧
      metrics { fonts := [(0, exFontOk)], keys := [("a", 0)] } 0 =
        Except.ok
          { descent := 0
            average_advance := f.average_advance
            line_height := exImgOk.height
            underline_position := f.underline_position
            underline_thickness := f.underline_thickness
            strikeout_position := f.strikeout_position
            strikeout_thickness := f.strikeout_thickness } :=
  metrics_fields.1 BitmapRasterizer.new "a" 0 exImgOk
    { fonts := [(0, exFontOk)], keys := [("a", 0)] } 0 (by rfl)

/-- C7: every failing load (open failure, byte-decode failure, or a missing
width/underline/strikeout marker) returns the registry unchanged with the
corresponding error, the decode errors are exactly the three marker errors,
and a handle is issued only when an image decoded with all three markers
found nonzero, the record being inserted into both maps. -/
theorem load_failure_no_mutation :
    (∀ (r : BitmapRasterizer) (desc : String) (key : Nat),
      load_font r desc key ImageInput.openFail
        = (r, Except.error (Error.FontNotFound desc))) ∧
    (∀ (r : BitmapRasterizer) (desc : String) (key : Nat),
      load_font r desc key ImageInput.decodeFail
        = (r, Except.error (Error.PlatformError "Failed to decode font"))) ∧
    (∀ (r : BitmapRasterizer) (desc : String) (key : Nat) (img : Image) (e : Error),
      decodeFont img = Except.error e →
      load_font r desc key (ImageInput.ok img) = (r, Except.error e)) ∧
    (∀ (img : Image) (e : Error), decodeFont img = Except.error e →
      e = Error.PlatformError "Cannot determine font glyph width" ∨
      e = Error.PlatformError "Cannot determine font underline position" ∨
      e = Error.PlatformError "Cannot determine font strikeout position") ∧
    (∀ (r : BitmapRasterizer) (desc : String) (key : Nat) (input : ImageInput)
        (r2 : BitmapRasterizer) (k : Nat),
      load_font r desc key input = (r2, Except.ok k) →
      ∃ img f, input = ImageInput.ok img ∧ decodeFont img = Except.ok f ∧
        k = key ∧
        f.average_advance ≠ 0 ∧ f.underline_position ≠ 0 ∧ f.strikeout_position ≠ 0 ∧
        r2 = { fonts := (key, f) :: r.fonts, keys := (desc, key) :: r.keys }) := by
  refine ⟨fun r desc key => rfl, fun r desc key => rfl, ?_, ?_, ?_⟩
  · intro r desc key img e hdec
    simp [load_font, hdec]
  · intro img e hdec
    simp only [decodeFont] at hdec
    split at hdec
    · injection hdec with h1
      exact Or.inl h1.symm
    · split at hdec
      · injection hdec with h1
        exact Or.inr (Or.inl h1.symm)
      · split at hdec
        · injection hdec with h1
          exact Or.inr (Or.inr h1.symm)
        · exact absurd hdec (by simp)
  · intro r desc key input r2 k hload
    cases input with
    | openFail => simp [load_font] at hload
    | decodeFail => simp [load_font] at hload
    | ok img =>
      cases hdec : decodeFont img with
      | error e => simp [load_font, hdec] at hload
      | ok f =>
        simp only [load_font, hdec] at hload
        have h1 := congrArg Prod.fst hload
        have h2 := congrArg Prod.snd hload
        simp only [] at h1 h2
        injection h2 with h3
        obtain ⟨-, -, -, -, -, -, -, -, -, hne1, hne2, hne3⟩ :=
          decodeFont_ok_fields img f hdec
        exact ⟨img, f, rfl, hdec, h3.symm, hne1, hne2, hne3, h1.symm⟩

/-- C7 witness: loading an atlas with no green marker fails with the
glyph-width error and leaves the empty registry untouched. -/
theorem load_failure_no_mutation_witness :
    load_font BitmapRasterizer.new "a" 0 (ImageInput.ok exImgNoGreen)
      = (BitmapRasterizer.new,
         Except.error (Error.PlatformError "Cannot determine font glyph width")) :=
  load_failure_no_mutation.2.2.1 BitmapRasterizer.new "a" 0 exImgNoGreen _ (by rfl)

/-- Each read-only operation leaves the registry state untouched (shared by
the frame-condition and invariant-preservation results). -/
theorem runReadOp_eq (r : BitmapRasterizer) (op : ReadOp) : runReadOp r op = r := by
  cases op <;> rfl

/-- Folding any sequence of read-only operations leaves the registry state
untouched. -/
theorem foldl_runReadOp_eq (ops : List ReadOp) :
    ∀ r : BitmapRasterizer, ops.foldl runReadOp r = r := by
  induction ops with
  | nil => intro r; rfl
  | cons op ops ih =>
    intro r
    rw [List.foldl_cons, runReadOp_eq]
    exact ih r

/-- C8: loading a well-formed image preserves the registry invariant
(positive glyph width, underline position, strikeout position; full-size
pixel buffer), and every sequence of read-only operations preserves it
too, since none mutates a stored record. -/
theorem registry_invariant :
    (∀ (r : BitmapRasterizer) (desc : String) (key : Nat) (input : ImageInput),
      RegistryInv r → (∀ img, input = ImageInput.ok img → img.wf) →
      RegistryInv (load_font r desc key input).1) ∧
    (∀ (r : BitmapRasterizer) (ops : List ReadOp),
      RegistryInv r → RegistryInv (ops.foldl runReadOp r)) := by
  constructor
  · intro r desc key input hinv hwf
    cases input with
    | openFail => exact hinv
    | decodeFail => exact hinv
    | ok img =>
      cases hdec : decodeFont img with
      | error e => simpa [load_font, hdec] using hinv
      | ok f =>
        simp only [load_font, hdec]
        intro kf hkf
        rcases List.mem_cons.mp hkf with rfl | hmem
        · obtain ⟨himg, hw, hh, -, -, -, -, -, -, hne1, hne2, hne3⟩ :=
            decodeFont_ok_fields img f hdec
          have hW := hwf img rfl
          rw [Image.wf] at hW
          refine ⟨?_, ?_, ?_, ?_⟩
          · show 0 < f.average_advance
            omega
          · show 0 < f.underline_position
            omega
          · show 0 < f.strikeout_position
            omega
          · show f.img.data.length = f.atlas_width * f.line_height * PIXEL_COMPONENTS
            rw [himg, hw, hh]
            exact hW
        · exact hinv kf hmem
  · intro r ops hinv
    rw [foldl_runReadOp_eq]
    exact hinv

/-- C8 witness: the invariant holds after loading `exImgOk` into the empty
registry. -/
theorem registry_invariant_witness :
    RegistryInv (load_font BitmapRasterizer.new "a" 0 (ImageInput.ok exImgOk)).1 :=
  registry_invariant.1 BitmapRasterizer.new "a" 0 (ImageInput.ok exImgOk)
    (fun kf hkf => absurd hkf (by simp [BitmapRasterizer.new]))
    (fun img h => by injection h with h2; rw [← h2]; unfold Image.wf; decide)

/-- C9: only `load_font` mutates the registry: every sequence of `metrics`,
`get_glyph`, `kerning` and `update_dpr` calls leaves both maps unchanged;
`update_dpr` has no effect for every ratio and `kerning` returns `(0, 0)`
for every pair of glyph keys. -/
theorem read_ops_pure :
    (∀ (r : BitmapRasterizer) (ops : List ReadOp), ops.foldl runReadOp r = r) ∧
    (∀ (r : BitmapRasterizer) (left right : GlyphKey),
      kerning r left right = (r, (0, 0))) ∧
    (∀ (r : BitmapRasterizer) (dpr : Int), update_dpr r dpr = r) :=
  ⟨fun r ops => foldl_runReadOp_eq ops r,
   fun _ _ _ => rfl,
   fun _ _ => rfl⟩

/-- C10: for a well-formed registered font whose requested cell fits inside
the atlas width, every pixel index visited by glyph extraction is strictly
inside the stored buffer and `rasterize_glyph` cannot hit the index-error
branch; a cell past the atlas width (with positive width and height) ends in
an index error rather than a returned `Error`. -/
theorem glyph_indices_in_bounds :
    (∀ (f : BitmapFont) (xo : Nat), f.wf →
      xo + f.average_advance ≤ f.atlas_width →
      ∀ i ∈ glyphIndices f xo, i + 2 < f.img.data.length) ∧
    (∀ (r : BitmapRasterizer) (g : GlyphKey) (f : BitmapFont),
      get_loaded_font r g.font_key = Except.ok f → f.wf →
      FIRST_CHARACTER ≤ g.character →
      (f.average_advance + f.padding_width) * (g.character - FIRST_CHARACTER + 1)
          + f.average_advance ≤ f.atlas_width →
      rasterize_glyph r g ≠ RunResult.indexError) ∧
    (∀ (r : BitmapRasterizer) (g : GlyphKey) (f : BitmapFont),
      get_loaded_font r g.font_key = Except.ok f → f.wf →
      FIRST_CHARACTER ≤ g.character →
      1 ≤ f.average_advance → 1 ≤ f.line_height →
      f.atlas_width < (f.average_advance + f.padding_width) * (g.character - FIRST_CHARACTER + 1)
          + f.average_advance →
      rasterize_glyph r g = RunResult.indexError) := by
  refine ⟨?_, ?_, ?_⟩
  · intro f xo hwf hin i hi
    obtain ⟨hw, hh, hlen⟩ := hwf
    rw [Image.wf] at hlen
    rw [mem_glyphIndices] at hi
    obtain ⟨y, hy, x, hx, rfl⟩ := hi
    rw [hlen, ← hw, ← hh]
    exact glyphIndex_bound hx hy hin
  · intro r g f hf hwf hc hin
    rw [rasterize_glyph_ok r g f hf hwf hc hin]
    exact fun h => RunResult.noConfusion h
  · intro r g f hf hwf hc hadv hlh hover
    have hnot : ¬ g.character < FIRST_CHARACTER := Nat.not_lt.mpr hc
    obtain ⟨hw, hh, hlen⟩ := hwf
    rw [Image.wf] at hlen
    set xo := (f.average_advance + f.padding_width) * (g.character - FIRST_CHARACTER + 1)
      with hxo
    have hmem : ((f.average_advance - 1) + xo + (f.line_height - 1) * f.atlas_width)
        * PIXEL_COMPONENTS ∈ glyphIndices f xo := by
      rw [mem_glyphIndices]
      exact ⟨f.line_height - 1, by omega, f.average_advance - 1, by omega, rfl⟩
    have hbig : f.img.data.length ≤
        ((f.average_advance - 1) + xo + (f.line_height - 1) * f.atlas_width)
          * PIXEL_COMPONENTS := by
      rw [hlen, ← hw, ← hh]
      have hsplit : f.atlas_width * f.line_height
          = (f.line_height - 1) * f.atlas_width + f.atlas_width := by
        have h5 : (f.line_height - 1) + 1 = f.line_height := by omega
        calc f.atlas_width * f.line_height
            = f.atlas_width * ((f.line_height - 1) + 1) := by rw [h5]
          _ = f.atlas_width * (f.line_height - 1) + f.atlas_width := by ring
          _ = (f.line_height - 1) * f.atlas_width + f.atlas_width := by ring
      have hP : PIXEL_COMPONENTS = 3 := rfl
      rw [hP]
      omega
    have hnone : extractGlyph f xo = none := by
      rw [extractGlyph]
      exact collectBytes_eq_none f.img.data _ _ hmem
        (pixelBytes_eq_none f.img.data _ (by omega))
    rw [rasterize_glyph]
    simp only [hf, if_neg hnot, ← hxo, hnone]

/-- C10 witness: in bounds for character 33 on the registered `exImgOk`
font, and an index error (not a returned `Error`) for character 34 whose
cell starts past the atlas width. -/
theorem glyph_indices_in_bounds_witness :
    (rasterize_glyph { fonts := [(0, exFontOk)], keys := [("a", 0)] }
        { font_key := 0, character := 33 } ≠ RunResult.indexError) ∧
    rasterize_glyph { fonts := [(0, exFontOk)], keys := [("a", 0)] }
        { font_key := 0, character := 34 } = RunResult.indexError :=
  ⟨glyph_indices_in_bounds.2.1 _ _ exFontOk (by rfl)
     ⟨rfl, rfl, by unfold Image.wf; decide⟩ (by decide) (by decide),
   glyph_indices_in_bounds.2.2 _ _ exFontOk (by rfl)
     ⟨rfl, rfl, by unfold Image.wf; decide⟩ (by decide) (by decide) (by decide)
     (by decide)⟩
